import Mathlib

/-!
Formal model of the Treehouse inbox bot (`src/bot.py`).

The two sqlite tables (`users`, `admin_map`) are modelled as lists of rows;
the sqlite upsert (`INSERT ... ON CONFLICT(user_id) DO UPDATE`) and
`INSERT OR REPLACE` become first-occurrence replacement on those lists, which
is what the statements do on a table with the given primary keys.
Timestamps (`now_utc_iso`) are opaque strings supplied by the environment.
Outbound Telegram operations become an emitted list of `Effect`s; operations
that can raise are modelled by success flags in a `HandlerEnv`, and a handler
body that can propagate an exception returns `Except Unit`.
The Python `csv` writer (dialect `excel`: delimiter `,`, quotechar the double
quote, QUOTE_MINIMAL, line terminator CR LF) is embedded at the level of
character lists, together with an executable CSV reader used for the
round-trip property.
-/

/-- Telegram user object as used by the handlers (`update.effective_user`). -/
structure TgUser where
  id : Nat
  username : Option String
  first_name : Option String
  last_name : Option String
deriving DecidableEq

/-- Telegram chat object (`update.effective_chat`). -/
structure TgChat where
  id : Int
  type : String
deriving DecidableEq

/-- Telegram message: its id and, when it is a reply, the id of the message
it replies to (`update.message.reply_to_message.message_id`). -/
structure TgMsg where
  message_id : Nat
  reply_to_id : Option Nat
deriving DecidableEq

/-- The shape of an inbound update that the handlers inspect. -/
structure TgUpdate where
  message : Option TgMsg
  effective_chat : Option TgChat
  effective_user : Option TgUser
deriving DecidableEq

/-- Startup configuration: `ADMIN_CHAT_ID` and the `ADMIN_USER_IDS` allow-list. -/
structure BotConfig where
  adminChatId : Int
  adminIds : List Nat
deriving DecidableEq

/-- One row of the `users` table. -/
structure UserRow where
  user_id : Nat
  username : String
  first_name : String
  last_name : String
  first_seen_utc : String
  last_seen_utc : String
deriving DecidableEq

/-- One row of the `admin_map` table. -/
structure MapRow where
  admin_msg_id : Nat
  user_id : Nat
  created_utc : String
deriving DecidableEq

/-- Python `x or ""` applied to an optional string field. -/
def orEmpty (s : Option String) : String := s.getD ""

/-- The row inserted by `upsert_user` when `user_id` is not present yet. -/
def newUserRow (u : TgUser) (t : String) : UserRow :=
  ⟨u.id, orEmpty u.username, orEmpty u.first_name, orEmpty u.last_name, t, t⟩

/-- The `DO UPDATE` arm of `upsert_user`: mutable fields and `last_seen_utc`
are overwritten, `user_id` and `first_seen_utc` are kept. -/
def updatedUserRow (r : UserRow) (u : TgUser) (t : String) : UserRow :=
  { r with
    username := orEmpty u.username
    first_name := orEmpty u.first_name
    last_name := orEmpty u.last_name
    last_seen_utc := t }

/-- `upsert_user` (src/bot.py lines 70-83): insert, or on `user_id` conflict
update the mutable fields, preserving `first_seen_utc`. -/
def upsert_user (u : TgUser) (t : String) : List UserRow → List UserRow
  | [] => [newUserRow u t]
  | r :: rs =>
    if r.user_id = u.id then updatedUserRow r u t :: rs
    else r :: upsert_user u t rs

/-- A sequence of `upsert_user` calls, each with its own user object and
timestamp, applied in order. -/
def applyCalls (calls : List (TgUser × String)) (db : List UserRow) : List UserRow :=
  calls.foldl (fun d c => upsert_user c.1 c.2 d) db

/-- `map_admin_msg` (src/bot.py lines 86-93): `INSERT OR REPLACE` keyed by
`admin_msg_id`. -/
def map_admin_msg (m uid : Nat) (t : String) : List MapRow → List MapRow
  | [] => [⟨m, uid, t⟩]
  | r :: rs =>
    if r.admin_msg_id = m then (⟨m, uid, t⟩ : MapRow) :: rs
    else r :: map_admin_msg m uid t rs

/-- `get_user_for_admin_reply` (src/bot.py lines 96-103): lookup by
`admin_msg_id`, `None` when no row matches. -/
def get_user_for_admin_reply (m : Nat) (db : List MapRow) : Option Nat :=
  (db.find? (fun r => r.admin_msg_id == m)).map (fun r => r.user_id)

/-- `is_admin` (src/bot.py lines 106-113). -/
def is_admin (cfg : BotConfig) (upd : TgUpdate) : Bool :=
  match upd.effective_user with
  | none => false
  | some u =>
    if cfg.adminIds = [] then
      match upd.effective_chat with
      | none => false
      | some c => c.id == cfg.adminChatId
    else cfg.adminIds.contains u.id

/-- First `users` row with the given id (the row a `WHERE user_id=?` query
returns under the primary-key invariant). -/
def findRow (db : List UserRow) (i : Nat) : Option UserRow :=
  db.find? (fun r => r.user_id == i)

/-- Number of `users` rows with the given id. -/
def countId (db : List UserRow) (i : Nat) : Nat :=
  (db.filter (fun r => r.user_id == i)).length

/-- Outbound operations performed through the Telegram client. -/
inductive Effect where
  | sendMessage (chatId : Int) (text : String)
  | forwardMessage (toChat fromChat : Int) (messageId : Nat)
  | copyMessage (toChat fromChat : Int) (messageId : Nat)
  | replyText (text : String)
  | replyDocument (content : List Char) (filename : String) (caption : String)
deriving DecidableEq

/-- The persistent state: both sqlite tables. -/
structure BotState where
  users : List UserRow
  admin_map : List MapRow
deriving DecidableEq

/-- Per-invocation environment: the wall-clock timestamp, success of each
fallible external call, and the message ids Telegram assigns to the header
and the forwarded copy. -/
structure HandlerEnv where
  now : String
  upsertOk : Bool
  sendOk : Bool
  forwardOk : Bool
  headerMsgId : Nat
  fwdMsgId : Nat
deriving DecidableEq

def ackText : String := "✅ Sent to admin. Reply will come here."

def warnNoUserText : String :=
  "⚠️ I couldn’t find the user for that reply. Reply to the header or forwarded message."

def copyFailText : String := "❌ Failed sending to user (they may have blocked the bot)."

def adminOnlyText : String := "⛔ Admin only."

def usageText : String := "Usage: /reply <user_id> <message>"

def numericText : String := "First argument must be numeric user_id."

def sentText : String := "✅ Sent."

def sendFailText : String := "❌ Failed (user may have blocked bot)."

/-- Decimal digit character. -/
def digitChar (d : Nat) : Char := Char.ofNat (48 + d)

/-- Accumulator loop for decimal rendering. -/
def natCharsAux : Nat → List Char → List Char
  | 0, acc => acc
  | n + 1, acc => natCharsAux ((n + 1) / 10) (digitChar ((n + 1) % 10) :: acc)
termination_by n _ => n
decreasing_by exact Nat.div_lt_self (Nat.succ_pos n) (by omega)

/-- Decimal rendering of a natural number, as Python `str`. -/
def natChars (n : Nat) : List Char :=
  if n = 0 then ['0'] else natCharsAux n []

/-- Decimal rendering as a `String`. -/
def natStr (n : Nat) : String := ⟨natChars n⟩

/-- The `handle` local of `user_message_to_admin`. -/
def handleStr (u : TgUser) : String :=
  if orEmpty u.username ≠ "" then "@" ++ orEmpty u.username else "(no username)"

/-- The `name` local of `user_message_to_admin`. -/
def nameStr (u : TgUser) : String :=
  let parts := [orEmpty u.first_name, orEmpty u.last_name].filter (fun p => p != "")
  let joined := String.intercalate " " parts
  if joined ≠ "" then joined else "(no name)"

/-- The header text sent to the admin chat by `user_message_to_admin`. -/
def headerText (u : TgUser) (now : String) : String :=
  "📩 New message\nUser: " ++ nameStr u ++ " | " ++ handleStr u ++
    "\nUser ID: " ++ natStr u.id ++ "\nTime: " ++ now

/-- `user_message_to_admin` (src/bot.py lines 138-174).  No failure is caught
in its body: a failing `upsert_user`, `send_message` or `forward_message`
propagates, which the model renders as `Except.error ()`. -/
def user_message_to_admin (cfg : BotConfig) (upd : TgUpdate) (env : HandlerEnv)
    (st : BotState) : Except Unit (BotState × List Effect) :=
  match upd.message with
  | none => .ok (st, [])
  | some msg =>
    match upd.effective_chat with
    | none => .ok (st, [])
    | some chat =>
      if chat.type = "private" then
        match upd.effective_user with
        | none => .ok (st, [])
        | some u =>
          if env.upsertOk then
            let users1 := upsert_user u env.now st.users
            if env.sendOk then
              let map1 := map_admin_msg env.headerMsgId u.id env.now st.admin_map
              if env.forwardOk then
                let map2 := map_admin_msg env.fwdMsgId u.id env.now map1
                .ok (⟨users1, map2⟩,
                  [Effect.sendMessage cfg.adminChatId (headerText u env.now),
                   Effect.forwardMessage cfg.adminChatId chat.id msg.message_id,
                   Effect.replyText ackText])
              else .error ()
            else .error ()
          else .error ()
      else .ok (st, [])

/-- `admin_reply_relay` (src/bot.py lines 178-207).  The only call guarded by
`try`/`except` in the source is `copy_message`, and the guard `if not user_id`
treats both `None` and `0` as a routing miss.  The model tracks failure for
that guarded call only: the mapping read at line 193 and the `reply_text`
notices at lines 195 and 207 are modelled as non-failing, so no theorem below
claims the handler as a whole cannot propagate a failure. -/
def admin_reply_relay (cfg : BotConfig) (upd : TgUpdate) (copyOk : Bool)
    (amap : List MapRow) : Except Unit (List Effect) :=
  match upd.message with
  | none => .ok []
  | some msg =>
    match msg.reply_to_id with
    | none => .ok []
    | some rid =>
      match upd.effective_chat with
      | none => .ok []
      | some chat =>
        if chat.id = cfg.adminChatId then
          if is_admin cfg upd then
            match get_user_for_admin_reply rid amap with
            | none => .ok [Effect.replyText warnNoUserText]
            | some uid =>
              if uid = 0 then .ok [Effect.replyText warnNoUserText]
              else if copyOk then
                .ok [Effect.copyMessage (Int.ofNat uid) cfg.adminChatId msg.message_id]
              else .ok [Effect.replyText copyFailText]
          else .ok []
        else .ok []

/-- Start codepoints of the runs of ten decimal-digit characters, Unicode
`Numeric_Type=Decimal` (Unicode 14.0, as shipped with CPython 3.11): exactly
the characters `int` accepts, each with decimal value
`codepoint - run start`. -/
def decDigitRunStarts : List Nat :=
  [0x30, 0x660, 0x6f0, 0x7c0, 0x966, 0x9e6, 0xa66, 0xae6, 0xb66, 0xbe6,
   0xc66, 0xce6, 0xd66, 0xde6, 0xe50, 0xed0, 0xf20, 0x1040, 0x1090, 0x17e0,
   0x1810, 0x1946, 0x19d0, 0x1a80, 0x1a90, 0x1b50, 0x1bb0, 0x1c40, 0x1c50,
   0xa620, 0xa8d0, 0xa900, 0xa9d0, 0xa9f0, 0xaa50, 0xabf0, 0xff10, 0x104a0,
   0x10d30, 0x11066, 0x110f0, 0x11136, 0x111d0, 0x112f0, 0x11450, 0x114d0,
   0x11650, 0x116c0, 0x11730, 0x118e0, 0x11950, 0x11c50, 0x11d50, 0x11da0,
   0x16a60, 0x16ac0, 0x16b50, 0x1d7ce, 0x1d7d8, 0x1d7e2, 0x1d7ec, 0x1d7f6,
   0x1e140, 0x1e2f0, 0x1e950, 0x1fbf0]

/-- Inclusive codepoint ranges of the characters with Unicode
`Numeric_Type=Digit` but no decimal value (same Unicode version): accepted by
`str.isdigit` yet rejected by `int` with a `ValueError` (e.g. `²`, `⑴`). -/
def digitOnlyRanges : List (Nat × Nat) :=
  [(0xb2, 0xb3), (0xb9, 0xb9), (0x1369, 0x1371), (0x19da, 0x19da),
   (0x2070, 0x2070), (0x2074, 0x2079), (0x2080, 0x2089), (0x2460, 0x2468),
   (0x2474, 0x247c), (0x2488, 0x2490), (0x24ea, 0x24ea), (0x24f5, 0x24fd),
   (0x24ff, 0x24ff), (0x2776, 0x277e), (0x2780, 0x2788), (0x278a, 0x2792),
   (0x10a40, 0x10a43), (0x10e60, 0x10e68), (0x11052, 0x1105a),
   (0x1f100, 0x1f10a)]

/-- Decimal value of a character, when it has one (Python
`unicodedata.decimal`). -/
def pyDecimalVal (c : Char) : Option Nat :=
  (decDigitRunStarts.find?
      (fun b => decide (b ≤ c.toNat) && decide (c.toNat < b + 10))).map
    (fun b => c.toNat - b)

/-- Python `str.isdigit` on one character: a decimal digit or a
`Numeric_Type=Digit` character. -/
def isPyDigitChar (c : Char) : Bool :=
  (pyDecimalVal c).isSome ||
    digitOnlyRanges.any
      (fun r => decide (r.1 ≤ c.toNat) && decide (c.toNat ≤ r.2))

/-- Python `str.isdigit`: nonempty and every character a digit. -/
def pyIsDigit (s : String) : Bool := !s.isEmpty && s.data.all isPyDigitChar

/-- Python `int` on a token that passed `isdigit` (so no sign, whitespace or
underscore can occur): it succeeds exactly when every character has a decimal
value, folding those values in base ten; a `Numeric_Type=Digit` character
makes it raise `ValueError`. -/
def pyInt? (s : String) : Option Nat :=
  if s.isEmpty then none
  else
    s.data.foldl
      (fun acc c =>
        match acc, pyDecimalVal c with
        | some n, some d => some (10 * n + d)
        | _, _ => none)
      (some 0)

/-- Python `str.strip`. -/
def pyStrip (s : String) : String :=
  ⟨((s.data.dropWhile Char.isWhitespace).reverse.dropWhile Char.isWhitespace).reverse⟩

/-- `reply_cmd` (src/bot.py lines 210-239).  The mapping table `amap` is
passed in only to record that the handler never reads it.  The `int` call at
line 231 sits outside the `try`, so a token that passes `isdigit` but has no
decimal parse (e.g. `²`) makes the handler raise, modelled as
`Except.error ()`. -/
def reply_cmd (cfg : BotConfig) (upd : TgUpdate) (args : List String)
    (sendOk : Bool) (amap : List MapRow) : Except Unit (List Effect) :=
  match upd.effective_chat with
  | none => .ok []
  | some chat =>
    if chat.id = cfg.adminChatId then
      if is_admin cfg upd then
        match upd.message with
        | none => .ok []
        | some _ =>
          if args.length < 2 then .ok [Effect.replyText usageText]
          else if pyIsDigit (args.headD "") then
            match pyInt? (args.headD "") with
            | none => .error ()
            | some uid =>
              let msgText := pyStrip (String.intercalate " " args.tail)
              if sendOk then
                .ok [Effect.sendMessage (Int.ofNat uid) msgText,
                     Effect.replyText sentText]
              else .ok [Effect.replyText sendFailText]
          else .ok [Effect.replyText numericText]
      else .ok [Effect.replyText adminOnlyText]
    else .ok []

/-- A character forcing quoting under csv QUOTE_MINIMAL with the `excel`
dialect: the delimiter, the quote character, or a line-terminator character. -/
def isSpecialChar (c : Char) : Bool :=
  c == ',' || c == '"' || c == '\r' || c == '\n'

/-- Double every quote character (csv doublequote escaping). -/
def escapeQuotes : List Char → List Char
  | [] => []
  | c :: cs => if c = '"' then '"' :: '"' :: escapeQuotes cs else c :: escapeQuotes cs

/-- One csv field under QUOTE_MINIMAL: quoted, with quotes doubled, exactly
when the field contains a special character. -/
def writeField (f : List Char) : List Char :=
  if f.any isSpecialChar then '"' :: (escapeQuotes f ++ ['"']) else f

/-- Fields of one record joined by the delimiter. -/
def writeFields : List (List Char) → List Char
  | [] => []
  | [f] => writeField f
  | f :: g :: fs => writeField f ++ ',' :: writeFields (g :: fs)

/-- One csv record, terminated by CR LF (the `excel` dialect terminator). -/
def writeRecord (fs : List (List Char)) : List Char :=
  writeFields fs ++ ['\r', '\n']

/-- A whole csv file. -/
def writeAll : List (List (List Char)) → List Char
  | [] => []
  | r :: rs => writeRecord r ++ writeAll rs

/-- The header record written by `export_users_cmd`. -/
def csvHeader : List (List Char) :=
  ["user_id".data, "username".data, "first_name".data, "last_name".data,
   "first_seen_utc".data, "last_seen_utc".data]

/-- The csv fields of one `users` row; `user_id` is rendered as Python
`str` renders the sqlite integer. -/
def rowFields (r : UserRow) : List (List Char) :=
  [natChars r.user_id, r.username.data, r.first_name.data, r.last_name.data,
   r.first_seen_utc.data, r.last_seen_utc.data]

/-- Comparison used by `ORDER BY first_seen_utc ASC`. -/
def rowLE (a b : UserRow) : Prop := a.first_seen_utc ≤ b.first_seen_utc

instance : DecidableRel rowLE :=
  fun a b => inferInstanceAs (Decidable (a.first_seen_utc ≤ b.first_seen_utc))

instance : IsTotal UserRow rowLE :=
  ⟨fun a b => le_total a.first_seen_utc b.first_seen_utc⟩

instance : IsTrans UserRow rowLE :=
  ⟨fun _ _ _ h h' => le_trans h h'⟩

/-- The `SELECT ... ORDER BY first_seen_utc ASC` result. -/
def sortUsers (db : List UserRow) : List UserRow := List.insertionSort rowLE db

/-- The csv document built by `export_users_cmd` (src/bot.py lines 268-292). -/
def exportCsv (users : List UserRow) : List Char :=
  writeAll (csvHeader :: (sortUsers users).map rowFields)

/-- `export_users_cmd` (src/bot.py lines 268-292). -/
def export_users_cmd (cfg : BotConfig) (upd : TgUpdate) (stamp : String)
    (st : BotState) : List Effect :=
  match upd.effective_chat with
  | none => []
  | some chat =>
    if chat.id = cfg.adminChatId then
      if is_admin cfg upd then
        [Effect.replyDocument (exportCsv st.users)
          ("treehouse_users_" ++ stamp ++ ".csv") "✅ Users export"]
      else [Effect.replyText adminOnlyText]
    else []

/-- csv reader, inside a quoted field: a doubled quote is a literal quote, a
single quote closes the field. -/
def parseQuoted : List Char → Option (List Char × List Char)
  | [] => none
  | c :: rest =>
    if c = '"' then
      match rest with
      | [] => some ([], [])
      | d :: rest2 =>
        if d = '"' then (parseQuoted rest2).map (fun p => ('"' :: p.1, p.2))
        else some ([], rest)
    else (parseQuoted rest).map (fun p => (c :: p.1, p.2))

/-- csv reader, unquoted field: read up to a delimiter or terminator. -/
def parseUnquoted : List Char → List Char × List Char
  | [] => ([], [])
  | c :: rest =>
    if isSpecialChar c then ([], c :: rest)
    else
      let p := parseUnquoted rest
      (c :: p.1, p.2)

/-- csv reader, one field. -/
def parseField (input : List Char) : Option (List Char × List Char) :=
  match input with
  | [] => some ([], [])
  | c :: rest => if c = '"' then parseQuoted rest else some (parseUnquoted (c :: rest))

/-- csv reader, one record (fuelled by the maximal number of fields). -/
def parseRecordF : Nat → List Char → Option (List (List Char) × List Char)
  | 0, _ => none
  | fuel + 1, input =>
    match parseField input with
    | none => none
    | some (f, rest) =>
      match rest with
      | ',' :: rest2 =>
        match parseRecordF fuel rest2 with
        | none => none
        | some (fs, rem) => some (f :: fs, rem)
      | '\r' :: '\n' :: rest2 => some ([f], rest2)
      | [] => some ([f], [])
      | _ :: _ => none

/-- csv reader, a whole document (fuelled by the maximal number of records). -/
def parseAllF : Nat → List Char → Option (List (List (List Char)))
  | 0, _ => none
  | _ + 1, [] => some []
  | fuel + 1, c :: cs =>
    match parseRecordF (fuel + 1) (c :: cs) with
    | none => none
    | some (r, rest) =>
      match parseAllF fuel rest with
      | none => none
      | some rs => some (r :: rs)

/-- csv reader entry point: the input length bounds both fuels. -/
def parseCsv (input : List Char) : Option (List (List (List Char))) :=
  parseAllF (input.length + 1) input

/-- Fuel sufficient to parse these records back. -/
def csvFuelBound : List (List (List Char)) → Nat
  | [] => 0
  | r :: rs => r.length + 1 + csvFuelBound rs

/-- The `(identifier, username, firstName, lastName)` tuple of a parsed record. -/
def recTuple (r : List (List Char)) : List Char × List Char × List Char × List Char :=
  (r.getD 0 [], r.getD 1 [], r.getD 2 [], r.getD 3 [])

/-- The `(identifier, username, firstName, lastName)` tuple of a stored row,
with the identifier in its decimal string form. -/
def rowTuple (u : UserRow) : List Char × List Char × List Char × List Char :=
  (natChars u.user_id, u.username.data, u.first_name.data, u.last_name.data)

/-- First line of a character stream, up to the CR of the record terminator. -/
def firstLine (cs : List Char) : List Char := cs.takeWhile (fun c => c != '\r')

/-- Looking up an id just written by `map_admin_msg` returns the written user. -/
theorem get_map_self (m uid : Nat) (t : String) (db : List MapRow) :
    get_user_for_admin_reply m (map_admin_msg m uid t db) = some uid := by
  induction db with
  | nil => simp [map_admin_msg, get_user_for_admin_reply]
  | cons r rs ih =>
    by_cases h : r.admin_msg_id = m
    · simp [map_admin_msg, h, get_user_for_admin_reply]
    · simp only [map_admin_msg, if_neg h]
      simpa [get_user_for_admin_reply, h] using ih

/-- `map_admin_msg` leaves lookups of other ids unchanged. -/
theorem get_map_other (m k uid : Nat) (t : String) (db : List MapRow) (h : k ≠ m) :
    get_user_for_admin_reply m (map_admin_msg k uid t db) =
      get_user_for_admin_reply m db := by
  induction db with
  | nil => simp [map_admin_msg, get_user_for_admin_reply, h]
  | cons r rs ih =>
    by_cases hr : r.admin_msg_id = k
    · simp [map_admin_msg, hr, get_user_for_admin_reply, h,
        show ¬ r.admin_msg_id = m from hr ▸ h]
    · by_cases hm : r.admin_msg_id = m
      · simp [map_admin_msg, hr, get_user_for_admin_reply, hm, Ne.symm h]
      · simp only [map_admin_msg, if_neg hr]
        simpa [get_user_for_admin_reply, hm] using ih

/-- A sequence of `map_admin_msg` writes that never touches `m` keeps the
lookup of `m` empty. -/
theorem get_foldl_map_not_recorded (calls : List (Nat × Nat × String)) (m : Nat)
    (h : ∀ c ∈ calls, c.1 ≠ m) (db : List MapRow)
    (hdb : get_user_for_admin_reply m db = none) :
    get_user_for_admin_reply m
      (calls.foldl (fun d c => map_admin_msg c.1 c.2.1 c.2.2 d) db) = none := by
  induction calls generalizing db with
  | nil => simpa using hdb
  | cons c cs ih =>
    simp only [List.foldl_cons]
    apply ih (fun x hx => h x (List.mem_cons_of_mem _ hx))
    rw [get_map_other m c.1 c.2.1 c.2.2 db (h c (List.mem_cons_self _ _))]
    exact hdb

/-- C3: recording a mapping for the same admin-message identifier twice makes
`get_user_for_admin_reply` return the second user identifier (last-writer-wins),
from any starting table. -/
theorem recordMapping_last_writer_wins (amap : List MapRow) (m u1 u2 : Nat)
    (t1 t2 : String) :
    get_user_for_admin_reply m
      (map_admin_msg m u2 t2 (map_admin_msg m u1 t1 amap)) = some u2 :=
  get_map_self m u2 t2 (map_admin_msg m u1 t1 amap)

/-- C4: an admin-message identifier never passed to `map_admin_msg` resolves to
`none`, and the admin-reply-relay handler answers such a routing miss with the
warning text instead of failing. -/
theorem resolveUser_absent_spec :
    (∀ (calls : List (Nat × Nat × String)) (m : Nat), (∀ c ∈ calls, c.1 ≠ m) →
      get_user_for_admin_reply m
        (calls.foldl (fun d c => map_admin_msg c.1 c.2.1 c.2.2 d) []) = none) ∧
    (∀ (cfg : BotConfig) (upd : TgUpdate) (msg : TgMsg) (rid : Nat) (chat : TgChat)
        (amap : List MapRow) (copyOk : Bool),
      upd.message = some msg → msg.reply_to_id = some rid →
      upd.effective_chat = some chat → chat.id = cfg.adminChatId →
      is_admin cfg upd = true →
      get_user_for_admin_reply rid amap = none →
      admin_reply_relay cfg upd copyOk amap = .ok [Effect.replyText warnNoUserText]) := by
  constructor
  · intro calls m h
    exact get_foldl_map_not_recorded calls m h [] rfl
  · intro cfg upd msg rid chat amap copyOk hm hr hc hid ha hnone
    simp [admin_reply_relay, hm, hr, hc, hid, ha, hnone]

theorem resolveUser_absent_spec_witness :
    get_user_for_admin_reply 7
      (([(5, 1, "t1"), (6, 2, "t2")] : List (Nat × Nat × String)).foldl
        (fun d c => map_admin_msg c.1 c.2.1 c.2.2 d) []) = none ∧
    admin_reply_relay ⟨1, []⟩
        ⟨some ⟨30, some 7⟩, some ⟨1, "supergroup"⟩, some ⟨42, none, none, none⟩⟩
        true [] = .ok [Effect.replyText warnNoUserText] :=
  ⟨resolveUser_absent_spec.1 [(5, 1, "t1"), (6, 2, "t2")] 7 (by decide),
   resolveUser_absent_spec.2 ⟨1, []⟩
     ⟨some ⟨30, some 7⟩, some ⟨1, "supergroup"⟩, some ⟨42, none, none, none⟩⟩
     ⟨30, some 7⟩ 7 ⟨1, "supergroup"⟩ [] true rfl rfl rfl rfl (by decide) rfl⟩

/-- C10: when the stored mapping resolves to user identifier `0`, the
admin-reply-relay handler's falsiness test treats it as a routing miss and
answers with the warning text instead of copying to user `0`. -/
theorem admin_reply_zero_user_spec (cfg : BotConfig) (upd : TgUpdate) (msg : TgMsg)
    (rid : Nat) (chat : TgChat) (t : String) (amap : List MapRow) (copyOk : Bool)
    (hm : upd.message = some msg) (hr : msg.reply_to_id = some rid)
    (hc : upd.effective_chat = some chat) (hid : chat.id = cfg.adminChatId)
    (ha : is_admin cfg upd = true) :
    admin_reply_relay cfg upd copyOk (map_admin_msg rid 0 t amap) =
      .ok [Effect.replyText warnNoUserText] := by
  simp [admin_reply_relay, hm, hr, hc, hid, ha, get_map_self]

theorem admin_reply_zero_user_spec_witness :
    admin_reply_relay ⟨1, []⟩
      ⟨some ⟨30, some 9⟩, some ⟨1, "supergroup"⟩, some ⟨42, none, none, none⟩⟩
      true (map_admin_msg 9 0 "t0" []) = .ok [Effect.replyText warnNoUserText] :=
  admin_reply_zero_user_spec ⟨1, []⟩
    ⟨some ⟨30, some 9⟩, some ⟨1, "supergroup"⟩, some ⟨42, none, none, none⟩⟩
    ⟨30, some 9⟩ 9 ⟨1, "supergroup"⟩ "t0" [] true rfl rfl rfl rfl (by decide)

theorem countId_cons_pos (r : UserRow) (rs : List UserRow) (i : Nat)
    (h : r.user_id = i) : countId (r :: rs) i = countId rs i + 1 := by
  simp [countId, h]

theorem countId_cons_neg (r : UserRow) (rs : List UserRow) (i : Nat)
    (h : ¬ r.user_id = i) : countId (r :: rs) i = countId rs i := by
  simp [countId, h]

theorem findRow_cons_pos (r : UserRow) (rs : List UserRow) (i : Nat)
    (h : r.user_id = i) : findRow (r :: rs) i = some r := by
  simp [findRow, h]

theorem findRow_cons_neg (r : UserRow) (rs : List UserRow) (i : Nat)
    (h : ¬ r.user_id = i) : findRow (r :: rs) i = findRow rs i := by
  simp [findRow, h]

/-- Upserting an id that is absent appends exactly the freshly inserted row. -/
theorem upsert_insert (u : TgUser) (t : String) :
    ∀ db : List UserRow, countId db u.id = 0 →
      countId (upsert_user u t db) u.id = 1 ∧
      findRow (upsert_user u t db) u.id = some (newUserRow u t) := by
  intro db
  induction db with
  | nil =>
    intro _
    constructor
    · simp [upsert_user, countId, newUserRow]
    · simp [upsert_user, findRow, newUserRow]
  | cons r rs ih =>
    intro h0
    have hr : ¬ r.user_id = u.id := by
      intro he
      rw [countId_cons_pos r rs u.id he] at h0
      omega
    have h0' : countId rs u.id = 0 := by
      rwa [countId_cons_neg r rs u.id hr] at h0
    obtain ⟨ihc, ihf⟩ := ih h0'
    constructor
    · simp only [upsert_user, if_neg hr]
      rw [countId_cons_neg r _ u.id hr]
      exact ihc
    · simp only [upsert_user, if_neg hr]
      rw [findRow_cons_neg r _ u.id hr]
      exact ihf

/-- Upserting an id present in exactly one row rewrites that row in place. -/
theorem upsert_update (u : TgUser) (t : String) :
    ∀ (db : List UserRow) (r0 : UserRow), countId db u.id = 1 →
      findRow db u.id = some r0 →
      countId (upsert_user u t db) u.id = 1 ∧
      findRow (upsert_user u t db) u.id = some (updatedUserRow r0 u t) := by
  intro db
  induction db with
  | nil =>
    intro r0 _ hf
    simp [findRow] at hf
  | cons r rs ih =>
    intro r0 h1 hf
    by_cases hr : r.user_id = u.id
    · have hr0 : r0 = r := by
        rw [findRow_cons_pos r rs u.id hr] at hf
        exact (Option.some_inj.mp hf).symm
      subst hr0
      have hrs : countId rs u.id = 0 := by
        rw [countId_cons_pos r0 rs u.id hr] at h1
        omega
      have hid : (updatedUserRow r0 u t).user_id = u.id := by
        simpa [updatedUserRow] using hr
      constructor
      · simp only [upsert_user, if_pos hr]
        rw [countId_cons_pos _ rs u.id hid, hrs]
      · simp only [upsert_user, if_pos hr]
        rw [findRow_cons_pos _ rs u.id hid]
    · have hf' : findRow rs u.id = some r0 := by
        rwa [findRow_cons_neg r rs u.id hr] at hf
      have h1' : countId rs u.id = 1 := by
        rwa [countId_cons_neg r rs u.id hr] at h1
      obtain ⟨ihc, ihf⟩ := ih r0 h1' hf'
      constructor
      · simp only [upsert_user, if_neg hr]
        rw [countId_cons_neg r _ u.id hr]
        exact ihc
      · simp only [upsert_user, if_neg hr]
        rw [findRow_cons_neg r _ u.id hr]
        exact ihf

/-- Batch of same-id upserts over a table holding exactly one row for that id:
the row count stays one, `first_seen_utc` is preserved, and the mutable fields
end up as supplied by the last call. -/
theorem applyCalls_existing (i : Nat) :
    ∀ (calls : List (TgUser × String)) (db : List UserRow) (r0 : UserRow),
      (∀ c ∈ calls, c.1.id = i) → countId db i = 1 → findRow db i = some r0 →
      countId (applyCalls calls db) i = 1 ∧
      ∃ r, findRow (applyCalls calls db) i = some r ∧
        r.first_seen_utc = r0.first_seen_utc ∧
        ((calls = [] ∧ r = r0) ∨
          (∃ c, calls.getLast? = some c ∧
            r.username = orEmpty c.1.username ∧
            r.first_name = orEmpty c.1.first_name ∧
            r.last_name = orEmpty c.1.last_name ∧
            r.last_seen_utc = c.2)) := by
  intro calls
  induction calls with
  | nil =>
    intro db r0 _ h1 hf
    exact ⟨h1, r0, hf, rfl, Or.inl ⟨rfl, rfl⟩⟩
  | cons c cs ih =>
    intro db r0 hall h1 hf
    have hc : c.1.id = i := hall c (List.mem_cons_self _ _)
    have h1' : countId db c.1.id = 1 := by rwa [hc]
    have hf' : findRow db c.1.id = some r0 := by rwa [hc]
    obtain ⟨hcnt, hfind⟩ := upsert_update c.1 c.2 db r0 h1' hf'
    have hcnt' : countId (upsert_user c.1 c.2 db) i = 1 := by rwa [hc] at hcnt
    have hfind' : findRow (upsert_user c.1 c.2 db) i =
        some (updatedUserRow r0 c.1 c.2) := by rwa [hc] at hfind
    have happ : applyCalls (c :: cs) db = applyCalls cs (upsert_user c.1 c.2 db) := rfl
    obtain ⟨jc, r, jf, jfs, jlast⟩ :=
      ih (upsert_user c.1 c.2 db) (updatedUserRow r0 c.1 c.2)
        (fun x hx => hall x (List.mem_cons_of_mem _ hx)) hcnt' hfind'
    refine ⟨by rwa [happ], r, by rwa [happ], ?_, ?_⟩
    · simpa [updatedUserRow] using jfs
    · rcases jlast with ⟨hcs, hr⟩ | ⟨c', hgl, hfields⟩
      · subst hcs
        exact Or.inr ⟨c, rfl, by simp [hr, updatedUserRow]⟩
      · cases cs with
        | nil => simp at hgl
        | cons d ds =>
          exact Or.inr ⟨c', by rwa [List.getLast?_cons_cons], hfields⟩

/-- C1: a nonempty sequence of `upsert_user` calls with the same identifier,
applied to a table not containing that identifier, leaves exactly one row for
it; its `first_seen_utc` is the timestamp of the first call, and its username,
first-name, last-name and `last_seen_utc` are those supplied by the last call. -/
theorem recordUser_upsert_spec (i : Nat) (calls : List (TgUser × String))
    (db : List UserRow) (hne : calls ≠ [])
    (hall : ∀ c ∈ calls, c.1.id = i) (h0 : countId db i = 0) :
    countId (applyCalls calls db) i = 1 ∧
    ∃ r, findRow (applyCalls calls db) i = some r ∧
      r.first_seen_utc = (calls.head hne).2 ∧
      ∃ c, calls.getLast? = some c ∧
        r.username = orEmpty c.1.username ∧
        r.first_name = orEmpty c.1.first_name ∧
        r.last_name = orEmpty c.1.last_name ∧
        r.last_seen_utc = c.2 := by
  cases calls with
  | nil => exact absurd rfl hne
  | cons c cs =>
    have hc : c.1.id = i := hall c (List.mem_cons_self _ _)
    have h0' : countId db c.1.id = 0 := by rwa [hc]
    obtain ⟨hcnt, hfind⟩ := upsert_insert c.1 c.2 db h0'
    have hcnt' : countId (upsert_user c.1 c.2 db) i = 1 := by rwa [hc] at hcnt
    have hfind' : findRow (upsert_user c.1 c.2 db) i = some (newUserRow c.1 c.2) := by
      rwa [hc] at hfind
    have happ : applyCalls (c :: cs) db = applyCalls cs (upsert_user c.1 c.2 db) := rfl
    obtain ⟨jc, r, jf, jfs, jlast⟩ :=
      applyCalls_existing i cs (upsert_user c.1 c.2 db) (newUserRow c.1 c.2)
        (fun x hx => hall x (List.mem_cons_of_mem _ hx)) hcnt' hfind'
    refine ⟨by rwa [happ], r, by rwa [happ], ?_, ?_⟩
    · simpa [newUserRow] using jfs
    · rcases jlast with ⟨hcs, hr⟩ | ⟨c', hgl, hfields⟩
      · subst hcs
        exact ⟨c, rfl, by simp [hr, newUserRow]⟩
      · cases cs with
        | nil => simp at hgl
        | cons d ds =>
          exact ⟨c', by rwa [List.getLast?_cons_cons], hfields⟩

theorem recordUser_upsert_spec_witness :
    (([(⟨42, some "alice", none, none⟩, "t1"),
       (⟨42, some "alicia", some "A", some "B"⟩, "t2")] : List (TgUser × String)) ≠ [] ∧
     (∀ c ∈ ([(⟨42, some "alice", none, none⟩, "t1"),
       (⟨42, some "alicia", some "A", some "B"⟩, "t2")] : List (TgUser × String)),
        c.1.id = 42) ∧
     countId [] 42 = 0) ∧
    (countId (applyCalls [(⟨42, some "alice", none, none⟩, "t1"),
        (⟨42, some "alicia", some "A", some "B"⟩, "t2")] []) 42 = 1 ∧
      ∃ r, findRow (applyCalls [(⟨42, some "alice", none, none⟩, "t1"),
          (⟨42, some "alicia", some "A", some "B"⟩, "t2")] []) 42 = some r ∧
        r.first_seen_utc = "t1" ∧
        ∃ c, ([(⟨42, some "alice", none, none⟩, "t1"),
            (⟨42, some "alicia", some "A", some "B"⟩, "t2")] :
              List (TgUser × String)).getLast? = some c ∧
          r.username = orEmpty c.1.username ∧
          r.first_name = orEmpty c.1.first_name ∧
          r.last_name = orEmpty c.1.last_name ∧
          r.last_seen_utc = c.2) :=
  ⟨⟨by decide, by decide, rfl⟩,
    recordUser_upsert_spec 42
      [(⟨42, some "alice", none, none⟩, "t1"),
       (⟨42, some "alicia", some "A", some "B"⟩, "t2")] [] (by decide) (by decide) rfl⟩

/-- C8: `is_admin` holds exactly when the update has an effective sender and
either the allow-list is non-empty and contains the sender's identifier, or
the allow-list is empty and the update's chat is the admin chat; an update
with no effective sender is never authorized. -/
theorem is_admin_spec (cfg : BotConfig) (upd : TgUpdate) :
    is_admin cfg upd = true ↔
      ∃ u, upd.effective_user = some u ∧
        ((cfg.adminIds ≠ [] ∧ u.id ∈ cfg.adminIds) ∨
         (cfg.adminIds = [] ∧
           ∃ c, upd.effective_chat = some c ∧ c.id = cfg.adminChatId)) := by
  cases hu : upd.effective_user with
  | none => simp [is_admin, hu]
  | some u =>
    by_cases hl : cfg.adminIds = []
    · cases hc : upd.effective_chat with
      | none => simp [is_admin, hu, hl, hc]
      | some c => simp [is_admin, hu, hl, hc]
    · simp [is_admin, hu, hl]

/-- C2: for a private-chat update with a message and an effective sender, on
the success path the user-to-admin relay upserts the user, sends the header
(whose text embeds the user's identifier) to the admin chat, forwards the
original message there, maps both new admin-side message ids to the user's
identifier, and finally acknowledges to the user. -/
theorem user_to_admin_relay_spec (cfg : BotConfig) (upd : TgUpdate)
    (env : HandlerEnv) (st : BotState) (msg : TgMsg) (chat : TgChat) (u : TgUser)
    (hm : upd.message = some msg) (hc : upd.effective_chat = some chat)
    (ht : chat.type = "private") (hu : upd.effective_user = some u)
    (h1 : env.upsertOk = true) (h2 : env.sendOk = true) (h3 : env.forwardOk = true) :
    ∃ st', user_message_to_admin cfg upd env st =
        .ok (st',
          [Effect.sendMessage cfg.adminChatId (headerText u env.now),
           Effect.forwardMessage cfg.adminChatId chat.id msg.message_id,
           Effect.replyText ackText]) ∧
      st'.users = upsert_user u env.now st.users ∧
      get_user_for_admin_reply env.headerMsgId st'.admin_map = some u.id ∧
      get_user_for_admin_reply env.fwdMsgId st'.admin_map = some u.id ∧
      ∃ a b, (headerText u env.now).data = a ++ natChars u.id ++ b := by
  refine ⟨⟨upsert_user u env.now st.users,
    map_admin_msg env.fwdMsgId u.id env.now
      (map_admin_msg env.headerMsgId u.id env.now st.admin_map)⟩, ?_, rfl, ?_, ?_, ?_⟩
  · simp [user_message_to_admin, hm, hc, ht, hu, h1, h2, h3]
  · by_cases he : env.fwdMsgId = env.headerMsgId
    · rw [he]
      exact get_map_self _ _ _ _
    · rw [get_map_other _ _ _ _ _ he]
      exact get_map_self _ _ _ _
  · exact get_map_self _ _ _ _
  · refine ⟨("📩 New message\nUser: " ++ nameStr u ++ " | " ++ handleStr u ++
        "\nUser ID: ").data, ("\nTime: " ++ env.now).data, ?_⟩
    simp [headerText, natStr, String.data_append]

theorem user_to_admin_relay_spec_witness :
    ((⟨some ⟨10, none⟩, some ⟨7, "private"⟩,
        some ⟨42, some "alice", none, none⟩⟩ : TgUpdate).message = some ⟨10, none⟩ ∧
     (⟨some ⟨10, none⟩, some ⟨7, "private"⟩,
        some ⟨42, some "alice", none, none⟩⟩ : TgUpdate).effective_chat =
          some ⟨7, "private"⟩ ∧
     (⟨7, "private"⟩ : TgChat).type = "private" ∧
     (⟨"T0", true, true, true, 100, 101⟩ : HandlerEnv).upsertOk = true) ∧
    (∃ st', user_message_to_admin ⟨5, []⟩
        ⟨some ⟨10, none⟩, some ⟨7, "private"⟩, some ⟨42, some "alice", none, none⟩⟩
        ⟨"T0", true, true, true, 100, 101⟩ ⟨[], []⟩ =
          .ok (st',
            [Effect.sendMessage 5 (headerText ⟨42, some "alice", none, none⟩ "T0"),
             Effect.forwardMessage 5 7 10,
             Effect.replyText ackText]) ∧
      st'.users = upsert_user ⟨42, some "alice", none, none⟩ "T0" [] ∧
      get_user_for_admin_reply 100 st'.admin_map = some 42 ∧
      get_user_for_admin_reply 101 st'.admin_map = some 42 ∧
      ∃ a b, (headerText ⟨42, some "alice", none, none⟩ "T0").data =
        a ++ natChars 42 ++ b) :=
  ⟨⟨rfl, rfl, rfl, rfl⟩,
    user_to_admin_relay_spec ⟨5, []⟩
      ⟨some ⟨10, none⟩, some ⟨7, "private"⟩, some ⟨42, some "alice", none, none⟩⟩
      ⟨"T0", true, true, true, 100, 101⟩ ⟨[], []⟩ ⟨10, none⟩ ⟨7, "private"⟩
      ⟨42, some "alice", none, none⟩ rfl rfl rfl rfl rfl rfl rfl⟩

/-- C7 (amended): for an authorized admin in the admin chat, `/reply` with
fewer than two tokens answers the usage text and with a first token failing
Python `isdigit` answers the numeric-error text, in both cases sending
nothing to any user; with a first token whose characters are all decimal
digits it sends the joined text directly to that user id and reports success
or failure, independently of the mapping table; with a first token passing
`isdigit` but containing a digit without decimal value (e.g. `²`), the
unguarded `int` call raises and the exception propagates out of the
handler. -/
theorem reply_cmd_spec (cfg : BotConfig) (upd : TgUpdate) (chat : TgChat)
    (msg : TgMsg) (args : List String) (sendOk : Bool) (amap : List MapRow)
    (hc : upd.effective_chat = some chat) (hid : chat.id = cfg.adminChatId)
    (ha : is_admin cfg upd = true) (hm : upd.message = some msg) :
    (args.length < 2 →
      reply_cmd cfg upd args sendOk amap = .ok [Effect.replyText usageText]) ∧
    (2 ≤ args.length → pyIsDigit (args.headD "") = false →
      reply_cmd cfg upd args sendOk amap = .ok [Effect.replyText numericText]) ∧
    ((args.length < 2 ∨ pyIsDigit (args.headD "") = false) →
      ∀ effs, reply_cmd cfg upd args sendOk amap = .ok effs →
        ∀ cid txt, Effect.sendMessage cid txt ∉ effs) ∧
    (∀ uid, 2 ≤ args.length → pyIsDigit (args.headD "") = true →
      pyInt? (args.headD "") = some uid →
      reply_cmd cfg upd args sendOk amap =
        if sendOk then
          .ok [Effect.sendMessage (Int.ofNat uid)
                 (pyStrip (String.intercalate " " args.tail)),
               Effect.replyText sentText]
        else .ok [Effect.replyText sendFailText]) ∧
    (2 ≤ args.length → pyIsDigit (args.headD "") = true →
      pyInt? (args.headD "") = none →
      reply_cmd cfg upd args sendOk amap = .error ()) ∧
    (∀ amap2, reply_cmd cfg upd args sendOk amap2 =
      reply_cmd cfg upd args sendOk amap) := by
  refine ⟨?_, ?_, ?_, ?_, ?_, fun _ => rfl⟩
  · intro hlen
    simp [reply_cmd, hc, hid, ha, hm, hlen]
  · intro hlen hdig
    rw [List.headD_eq_head?_getD] at hdig
    simp [reply_cmd, hc, hid, ha, hm, Nat.not_lt.mpr hlen, hdig]
  · intro hbad effs heq cid txt
    rcases hbad with hlen | hdig
    · have h1 : reply_cmd cfg upd args sendOk amap =
          .ok [Effect.replyText usageText] := by
        simp [reply_cmd, hc, hid, ha, hm, hlen]
      rw [h1] at heq
      obtain rfl : [Effect.replyText usageText] = effs := by simpa using heq
      simp
    · rw [List.headD_eq_head?_getD] at hdig
      by_cases hlen : args.length < 2
      · have h1 : reply_cmd cfg upd args sendOk amap =
            .ok [Effect.replyText usageText] := by
          simp [reply_cmd, hc, hid, ha, hm, hlen]
        rw [h1] at heq
        obtain rfl : [Effect.replyText usageText] = effs := by simpa using heq
        simp
      · have h1 : reply_cmd cfg upd args sendOk amap =
            .ok [Effect.replyText numericText] := by
          simp [reply_cmd, hc, hid, ha, hm, hlen, hdig]
        rw [h1] at heq
        obtain rfl : [Effect.replyText numericText] = effs := by simpa using heq
        simp
  · intro uid hlen hdig hint
    rw [List.headD_eq_head?_getD] at hdig hint
    simp [reply_cmd, hc, hid, ha, hm, Nat.not_lt.mpr hlen, hdig, hint]
  · intro hlen hdig hint
    rw [List.headD_eq_head?_getD] at hdig hint
    simp [reply_cmd, hc, hid, ha, hm, Nat.not_lt.mpr hlen, hdig, hint]

/-- C7 as stated is false of the program: the first argument `²` is not a
non-negative integer, yet the handler neither replies usage help nor stays
silent — `²` passes the `isdigit` check and the unguarded `int` call at
bot.py:231 raises `ValueError`, which escapes the handler. -/
theorem reply_cmd_cex :
    pyIsDigit "²" = true ∧ pyInt? "²" = none ∧
    reply_cmd ⟨1, []⟩
      ⟨some ⟨30, none⟩, some ⟨1, "supergroup"⟩, some ⟨42, none, none, none⟩⟩
      ["²", "hi"] true [] = .error () :=
  ⟨by decide, by decide, rfl⟩

theorem reply_cmd_spec_witness :
    pyIsDigit "٣" = true ∧ pyInt? "٣" = some 3 ∧
    is_admin ⟨1, []⟩
      ⟨some ⟨30, none⟩, some ⟨1, "supergroup"⟩,
       some ⟨42, none, none, none⟩⟩ = true ∧
    reply_cmd ⟨1, []⟩
      ⟨some ⟨30, none⟩, some ⟨1, "supergroup"⟩, some ⟨42, none, none, none⟩⟩
      ["٣", "hi"] true [] =
      .ok [Effect.sendMessage 3 "hi", Effect.replyText sentText] := by
  refine ⟨by decide, by decide, by decide, ?_⟩
  have h := (reply_cmd_spec ⟨1, []⟩
      ⟨some ⟨30, none⟩, some ⟨1, "supergroup"⟩, some ⟨42, none, none, none⟩⟩
      ⟨1, "supergroup"⟩ ⟨30, none⟩ ["٣", "hi"] true []
      rfl rfl (by decide) rfl).2.2.2.1 3 (by decide) (by decide) (by decide)
  rw [h]
  rfl

/-- C9 (amended): not every failure is caught at the handler boundary.  The
two delivery calls wrapped in `try`/`except` in the source are — `copy_message`
in `admin_reply_relay` and `send_message` in `reply_cmd`, each answered with a
❌ notice to the admin — while `user_message_to_admin` catches nothing, so a
storage fault during `upsert_user` propagates out of that handler.  (The
model tracks failure only for those guarded calls and the upsert; nothing is
asserted about the handlers' other, unguarded calls.) -/
theorem failure_handling_spec :
    (∀ (cfg : BotConfig) (upd : TgUpdate) (msg : TgMsg) (rid uid : Nat)
        (chat : TgChat) (amap : List MapRow),
      upd.message = some msg → msg.reply_to_id = some rid →
      upd.effective_chat = some chat → chat.id = cfg.adminChatId →
      is_admin cfg upd = true →
      get_user_for_admin_reply rid amap = some uid → uid ≠ 0 →
      admin_reply_relay cfg upd false amap = .ok [Effect.replyText copyFailText]) ∧
    (∀ (cfg : BotConfig) (upd : TgUpdate) (chat : TgChat) (msg : TgMsg)
        (args : List String) (amap : List MapRow) (uid : Nat),
      upd.effective_chat = some chat → chat.id = cfg.adminChatId →
      is_admin cfg upd = true → upd.message = some msg →
      2 ≤ args.length → pyIsDigit (args.headD "") = true →
      pyInt? (args.headD "") = some uid →
      reply_cmd cfg upd args false amap = .ok [Effect.replyText sendFailText]) ∧
    (∀ (cfg : BotConfig) (upd : TgUpdate) (env : HandlerEnv) (st : BotState)
        (msg : TgMsg) (chat : TgChat) (u : TgUser),
      upd.message = some msg → upd.effective_chat = some chat →
      chat.type = "private" → upd.effective_user = some u →
      env.upsertOk = false →
      user_message_to_admin cfg upd env st = .error ()) := by
  refine ⟨?_, ?_, ?_⟩
  · intro cfg upd msg rid uid chat amap hm hr hc hid ha hget hne
    simp [admin_reply_relay, hm, hr, hc, hid, ha, hget, hne]
  · intro cfg upd chat msg args amap uid hc hid ha hm hlen hdig hint
    rw [List.headD_eq_head?_getD] at hdig hint
    simp [reply_cmd, hc, hid, ha, hm, Nat.not_lt.mpr hlen, hdig, hint]
  · intro cfg upd env st msg chat u hm hc ht hu henv
    simp [user_message_to_admin, hm, hc, ht, hu, henv]

theorem failure_handling_cex :
    user_message_to_admin ⟨1, []⟩
      ⟨some ⟨10, none⟩, some ⟨7, "private"⟩, some ⟨42, some "alice", none, none⟩⟩
      ⟨"T0", false, true, true, 100, 101⟩ ⟨[], []⟩ = .error () := rfl

theorem failure_handling_spec_witness :
    admin_reply_relay ⟨1, []⟩
        ⟨some ⟨30, some 9⟩, some ⟨1, "supergroup"⟩, some ⟨42, none, none, none⟩⟩
        false (map_admin_msg 9 5 "t0" []) = .ok [Effect.replyText copyFailText] ∧
    reply_cmd ⟨1, []⟩
        ⟨some ⟨30, none⟩, some ⟨1, "supergroup"⟩, some ⟨42, none, none, none⟩⟩
        ["42", "hi"] false [] = .ok [Effect.replyText sendFailText] ∧
    user_message_to_admin ⟨1, []⟩
        ⟨some ⟨10, none⟩, some ⟨7, "private"⟩, some ⟨42, some "alice", none, none⟩⟩
        ⟨"T0", false, true, true, 100, 101⟩ ⟨[], []⟩ = .error () :=
  ⟨failure_handling_spec.1 ⟨1, []⟩
     ⟨some ⟨30, some 9⟩, some ⟨1, "supergroup"⟩, some ⟨42, none, none, none⟩⟩
     ⟨30, some 9⟩ 9 5 ⟨1, "supergroup"⟩ (map_admin_msg 9 5 "t0" [])
     rfl rfl rfl rfl (by decide) rfl (by decide),
   failure_handling_spec.2.1 ⟨1, []⟩
     ⟨some ⟨30, none⟩, some ⟨1, "supergroup"⟩, some ⟨42, none, none, none⟩⟩
     ⟨1, "supergroup"⟩ ⟨30, none⟩ ["42", "hi"] [] 42
     rfl rfl (by decide) rfl (by decide) (by decide) (by decide),
   failure_handling_spec.2.2 ⟨1, []⟩
     ⟨some ⟨10, none⟩, some ⟨7, "private"⟩, some ⟨42, some "alice", none, none⟩⟩
     ⟨"T0", false, true, true, 100, 101⟩ ⟨[], []⟩
     ⟨10, none⟩ ⟨7, "private"⟩ ⟨42, some "alice", none, none⟩ rfl rfl rfl rfl rfl⟩

/-- A field containing a comma, quote or newline is written quoted, with the
internal quotes doubled by `escapeQuotes`. -/
theorem writeField_quotes (f : List Char)
    (h : f.any (fun c => c == ',' || c == '"' || c == '\n') = true) :
    writeField f = '"' :: (escapeQuotes f ++ ['"']) := by
  have hs : f.any isSpecialChar = true := by
    rw [List.any_eq_true] at h ⊢
    obtain ⟨c, hc, hp⟩ := h
    refine ⟨c, hc, ?_⟩
    simp only [Bool.or_eq_true, beq_iff_eq] at hp
    rcases hp with (h1 | h1) | h1 <;> subst h1 <;> rfl
  simp only [writeField, if_pos hs]

/-- C5 (amended): for an authorized admin, `/export_users` sends one document
whose content is the csv table of all users ordered by `first_seen_utc`
ascending, with header row
`user_id,username,first_name,last_name,first_seen_utc,last_seen_utc`, and in
which every field containing a comma, quote or newline is quoted with
internal quotes doubled. -/
theorem export_users_spec (cfg : BotConfig) (upd : TgUpdate) (stamp : String)
    (st : BotState) (chat : TgChat)
    (hc : upd.effective_chat = some chat) (hid : chat.id = cfg.adminChatId)
    (ha : is_admin cfg upd = true) :
    ∃ sorted : List UserRow,
      sorted.Perm st.users ∧ List.Sorted rowLE sorted ∧
      export_users_cmd cfg upd stamp st =
        [Effect.replyDocument (writeAll (csvHeader :: sorted.map rowFields))
          ("treehouse_users_" ++ stamp ++ ".csv") "✅ Users export"] ∧
      csvHeader = ["user_id".data, "username".data, "first_name".data,
        "last_name".data, "first_seen_utc".data, "last_seen_utc".data] ∧
      (∀ f : List Char, f.any (fun c => c == ',' || c == '"' || c == '\n') = true →
        writeField f = '"' :: (escapeQuotes f ++ ['"'])) := by
  refine ⟨sortUsers st.users, List.perm_insertionSort rowLE st.users,
    List.sorted_insertionSort rowLE st.users, ?_, rfl, writeField_quotes⟩
  simp [export_users_cmd, hc, hid, ha, exportCsv]

/-- The claim's header row is not the one written: on the empty table the
first line of the export is
`user_id,username,first_name,last_name,first_seen_utc,last_seen_utc`, not
`user_id,username,first_name,last_name,first_seen,last_seen`. -/
theorem export_header_cex :
    firstLine (exportCsv []) ≠
      "user_id,username,first_name,last_name,first_seen,last_seen".data := by
  decide

theorem export_users_spec_witness :
    ((⟨none, some ⟨1, "supergroup"⟩, some ⟨42, none, none, none⟩⟩ :
        TgUpdate).effective_chat = some ⟨1, "supergroup"⟩ ∧
      (⟨1, "supergroup"⟩ : TgChat).id = (⟨1, []⟩ : BotConfig).adminChatId ∧
      is_admin ⟨1, []⟩
        ⟨none, some ⟨1, "supergroup"⟩, some ⟨42, none, none, none⟩⟩ = true) ∧
    (∃ sorted : List UserRow,
      sorted.Perm ([] : List UserRow) ∧ List.Sorted rowLE sorted ∧
      export_users_cmd ⟨1, []⟩
          ⟨none, some ⟨1, "supergroup"⟩, some ⟨42, none, none, none⟩⟩ "s" ⟨[], []⟩ =
        [Effect.replyDocument (writeAll (csvHeader :: sorted.map rowFields))
          ("treehouse_users_" ++ "s" ++ ".csv") "✅ Users export"] ∧
      csvHeader = ["user_id".data, "username".data, "first_name".data,
        "last_name".data, "first_seen_utc".data, "last_seen_utc".data] ∧
      (∀ f : List Char, f.any (fun c => c == ',' || c == '"' || c == '\n') = true →
        writeField f = '"' :: (escapeQuotes f ++ ['"']))) :=
  ⟨⟨rfl, rfl, by decide⟩,
    export_users_spec ⟨1, []⟩
      ⟨none, some ⟨1, "supergroup"⟩, some ⟨42, none, none, none⟩⟩ "s" ⟨[], []⟩
      ⟨1, "supergroup"⟩ rfl rfl (by decide)⟩

/-- Reading back an escaped field body: the closing quote ends the field
provided the remainder does not begin with another quote. -/
theorem parseQuoted_escape (s rest : List Char)
    (h : ∀ cs : List Char, rest ≠ '"' :: cs) :
    parseQuoted (escapeQuotes s ++ '"' :: rest) = some (s, rest) := by
  induction s with
  | nil =>
    simp only [escapeQuotes, List.nil_append]
    cases rest with
    | nil => simp [parseQuoted]
    | cons d rest2 =>
      have hd : ¬ d = '"' := fun he => h rest2 (by rw [he])
      simp [parseQuoted, hd]
  | cons a s' ih =>
    by_cases ha : a = '"'
    · subst ha
      simp only [escapeQuotes, if_pos rfl, List.cons_append]
      rw [parseQuoted.eq_def]
      simp [ih]
    · simp only [escapeQuotes, if_neg ha, List.cons_append]
      rw [parseQuoted.eq_def]
      simp [ha, ih]

/-- Reading back an unquoted clean field: it ends exactly at the following
special character (or at the end of input). -/
theorem parseUnquoted_clean (s rest : List Char)
    (hs : ∀ c ∈ s, isSpecialChar c = false)
    (hr : rest = [] ∨ ∃ c cs, rest = c :: cs ∧ isSpecialChar c = true) :
    parseUnquoted (s ++ rest) = (s, rest) := by
  induction s with
  | nil =>
    rcases hr with h | ⟨c, cs, hrest, hc⟩
    · subst h
      simp [parseUnquoted]
    · subst hrest
      simp [parseUnquoted, hc]
  | cons a s' ih =>
    have ha : isSpecialChar a = false := hs a (List.mem_cons_self _ _)
    simp [parseUnquoted, ha, ih (fun c hc => hs c (List.mem_cons_of_mem _ hc))]

/-- Reading back one written field, when followed by a separator, a record
terminator, or the end of input. -/
theorem parseField_write (f rest : List Char)
    (hr : rest = [] ∨ (∃ t, rest = ',' :: t) ∨ (∃ t, rest = '\r' :: t)) :
    parseField (writeField f ++ rest) = some (f, rest) := by
  by_cases hq : f.any isSpecialChar = true
  · have hnq : ∀ cs : List Char, rest ≠ '"' :: cs := by
      rcases hr with h | ⟨t, h⟩ | ⟨t, h⟩ <;> subst h <;> intro cs hcc <;> simp at hcc
    simp only [writeField, if_pos hq]
    have hshape : ('"' :: (escapeQuotes f ++ ['"'])) ++ rest =
        '"' :: (escapeQuotes f ++ '"' :: rest) := by
      simp
    rw [hshape]
    simpa [parseField] using parseQuoted_escape f rest hnq
  · have hclean : ∀ c ∈ f, isSpecialChar c = false := by
      intro c hcm
      by_contra hcc
      exact hq (List.any_eq_true.mpr ⟨c, hcm, by simpa using hcc⟩)
    have hr2 : rest = [] ∨ ∃ c cs, rest = c :: cs ∧ isSpecialChar c = true := by
      rcases hr with h | ⟨t, h⟩ | ⟨t, h⟩
      · exact Or.inl h
      · exact Or.inr ⟨',', t, h, rfl⟩
      · exact Or.inr ⟨'\r', t, h, rfl⟩
    simp only [writeField, if_neg hq]
    cases hf : f with
    | nil =>
      simp only [List.nil_append]
      rcases hr with h | ⟨t, h⟩ | ⟨t, h⟩ <;> subst h
      · simp [parseField]
      · simp [parseField, parseUnquoted, isSpecialChar]
      · simp [parseField, parseUnquoted, isSpecialChar]
    | cons a f' =>
      have ha : isSpecialChar a = false := hclean a (hf ▸ List.mem_cons_self a f')
      have ha' : ¬ a = '"' := by
        intro he
        subst he
        simp [isSpecialChar] at ha
      rw [List.cons_append]
      simp only [parseField, if_neg ha']
      rw [← List.cons_append,
        parseUnquoted_clean (a :: f') rest (hf ▸ hclean) hr2]

/-- Reading back one written record, given fuel at least its field count. -/
theorem parseRecordF_write :
    ∀ (fs : List (List Char)) (fuel : Nat) (rest : List Char), fs ≠ [] →
      fs.length ≤ fuel →
      parseRecordF fuel (writeRecord fs ++ rest) = some (fs, rest) := by
  intro fs
  induction fs with
  | nil =>
    intro fuel rest h _
    exact absurd rfl h
  | cons f fs' ih =>
    intro fuel rest _ hlen
    cases fuel with
    | zero => simp at hlen
    | succ k =>
      cases fs' with
      | nil =>
        have hshape : writeRecord [f] ++ rest = writeField f ++ '\r' :: '\n' :: rest := by
          simp [writeRecord, writeFields]
        rw [hshape, parseRecordF,
          parseField_write f ('\r' :: '\n' :: rest) (Or.inr (Or.inr ⟨'\n' :: rest, rfl⟩))]
        rfl
      | cons g gs =>
        have hshape : writeRecord (f :: g :: gs) ++ rest =
            writeField f ++ ',' :: (writeRecord (g :: gs) ++ rest) := by
          simp [writeRecord, writeFields, List.append_assoc]
        have hlen' : (g :: gs).length ≤ k := by
          simp only [List.length_cons] at hlen ⊢
          omega
        rw [hshape, parseRecordF,
          parseField_write f (',' :: (writeRecord (g :: gs) ++ rest))
            (Or.inr (Or.inl ⟨writeRecord (g :: gs) ++ rest, rfl⟩))]
        simp only []
        rw [ih k rest (List.cons_ne_nil g gs) hlen']

/-- Record separators dominate the field count, so the input length bounds
the fuel needed per record. -/
theorem writeFields_length (fs : List (List Char)) :
    fs.length ≤ (writeFields fs).length + 1 := by
  induction fs with
  | nil => simp [writeFields]
  | cons f fs' ih =>
    cases fs' with
    | nil => simp [writeFields]
    | cons g gs =>
      simp only [writeFields, List.length_append, List.length_cons] at ih ⊢
      omega

/-- The record-count fuel bound is dominated by the document length. -/
theorem csvFuelBound_le (rs : List (List (List Char))) :
    csvFuelBound rs ≤ (writeAll rs).length := by
  induction rs with
  | nil => simp [csvFuelBound, writeAll]
  | cons r rs' ih =>
    have h1 := writeFields_length r
    simp only [csvFuelBound, writeAll, writeRecord, List.length_append,
      List.length_cons, List.length_nil] at h1 ih ⊢
    omega

/-- Reading back a whole written document, given fuel above the bound. -/
theorem parseAllF_write :
    ∀ (rs : List (List (List Char))) (fuel : Nat),
      (∀ r ∈ rs, r ≠ []) → csvFuelBound rs < fuel →
      parseAllF fuel (writeAll rs) = some rs := by
  intro rs
  induction rs with
  | nil =>
    intro fuel _ hb
    cases fuel with
    | zero => omega
    | succ k => rfl
  | cons r rs' ih =>
    intro fuel hne hb
    simp only [csvFuelBound] at hb
    cases fuel with
    | zero => omega
    | succ k =>
      cases hwa : writeRecord r ++ writeAll rs' with
      | nil =>
        exfalso
        rcases List.append_eq_nil.mp hwa with ⟨h1, _⟩
        simp [writeRecord] at h1
      | cons c cs =>
        rw [show writeAll (r :: rs') = writeRecord r ++ writeAll rs' from rfl, hwa,
          parseAllF, ← hwa,
          parseRecordF_write r (k + 1) (writeAll rs')
            (hne r (List.mem_cons_self r rs')) (by omega)]
        simp only []
        rw [ih k (fun x hx => hne x (List.mem_cons_of_mem r hx)) (by omega)]

/-- C6: parsing the produced export yields the header record followed by
records carrying exactly the stored `(identifier, username, firstName,
lastName)` tuples (identifier in its decimal string form), up to the export
ordering. -/
theorem export_roundtrip (users : List UserRow) :
    ∃ recs, parseCsv (exportCsv users) = some (csvHeader :: recs) ∧
      List.Perm (recs.map recTuple) (users.map rowTuple) := by
  refine ⟨(sortUsers users).map rowFields, ?_, ?_⟩
  · have hne : ∀ r ∈ csvHeader :: (sortUsers users).map rowFields, r ≠ [] := by
      intro r hr
      rcases List.mem_cons.mp hr with h | h
      · subst h
        simp [csvHeader]
      · obtain ⟨u, _, hu⟩ := List.mem_map.mp h
        rw [← hu]
        simp [rowFields]
    have hb := csvFuelBound_le (csvHeader :: (sortUsers users).map rowFields)
    have hdef : parseCsv (exportCsv users) =
        parseAllF ((writeAll (csvHeader :: (sortUsers users).map rowFields)).length + 1)
          (writeAll (csvHeader :: (sortUsers users).map rowFields)) := rfl
    rw [hdef]
    exact parseAllF_write _ _ hne (Nat.lt_succ_of_le hb)
  · have h1 : ((sortUsers users).map rowFields).map recTuple =
        (sortUsers users).map rowTuple := by
      rw [List.map_map]
      rfl
    rw [h1]
    exact (List.perm_insertionSort rowLE users).map rowTuple
